import Mathlib

/-!
Shallow embedding of the stage-progression engine of `src/app.py`
(DataHub).  The engine tracks barcodes moving through an ordered stage
catalog: per ingest request it resolves the target stage, classifies each
barcode of the batch against its stored position, conditionally writes the
barcode-state store, and always appends to the event log.

The three SQL tables (`dbo.stages`, `dbo.barcodes`, `dbo.events`) are
modelled as Lean lists of records; SQL lookups (`SELECT ... WHERE x = ?`
with `fetchone`) become first-match searches, `UPDATE ... WHERE` becomes a
map over rows, and `INSERT` appends a row.  Python `datetime` values are
modelled by an abstract clock value plus an optional timezone name, which
is all the code inspects (`dt.tzinfo is None`, `dt.replace(tzinfo=...)`).
-/

namespace DataHub

/-- Model of a Python `datetime`: an abstract naive clock value together
with the `tzinfo` field (`none` = naive).  `app.py` only ever inspects
`tzinfo` and replaces it, so the clock value stays opaque. -/
structure DateTime where
  clock : Int
  tzinfo : Option String
deriving DecidableEq, Repr

/-- Row of `dbo.stages`: embeds the frozen dataclass `Stage` of app.py. -/
structure Stage where
  stage_name : String
  position : Int
deriving DecidableEq, Repr

/-- Row of `dbo.barcodes` (the barcode-state store): columns
`barcode, stage, created_date, last_updated`. -/
structure BarcodeRow where
  barcode : String
  stage : String
  created_date : DateTime
  last_updated : DateTime
deriving DecidableEq, Repr

/-- Row of `dbo.events` (append-only event log): columns
`barcode, stage, event_time`. -/
structure EventRow where
  barcode : String
  stage : String
  event_time : DateTime
deriving DecidableEq, Repr

/-- The persistent database state seen through the pyodbc connection. -/
structure DB where
  stages : List Stage
  barcodes : List BarcodeRow
  events : List EventRow
deriving DecidableEq, Repr

/-- The `Literal["new", "old", "same"]` result type of `classify_barcode`:
`new` = NEW, `old` = ADVANCE, `same` = NOOP. -/
inductive Classification where
  | new
  | old
  | same
deriving DecidableEq, Repr

/-- The `processed` counter dict of the ingest route:
`{"new": 0, "old": 0, "same": 0}`. -/
structure Counts where
  new : Nat
  old : Nat
  same : Nat
deriving DecidableEq, Repr

/-- Model of `fastapi.HTTPException` (and of FastAPI request-validation
errors, which carry status 422): a status code plus a detail string. -/
structure HTTPError where
  status_code : Nat
  detail : String
deriving DecidableEq, Repr

/-- The JSON body the ingest route returns on success. -/
structure IngestResponse where
  stage : String
  position : Int
  counts : Counts
  message : String
deriving DecidableEq, Repr

/-- First stage row whose `stage_name` equals the argument: the
`SELECT stage_name, position FROM dbo.stages WHERE stage_name = ?` +
`fetchone` of `get_stage`. -/
def find_stage : List Stage → String → Option Stage
  | [], _ => none
  | s :: rest, n => if s.stage_name = n then some s else find_stage rest n

/-- Embeds `get_stage`: resolve a stage name in the catalog; `none` models
the raised `HTTPException(404)`. -/
def get_stage (db : DB) (stage_name : String) : Option Stage :=
  find_stage db.stages stage_name

/-- One joined row of the query in `current_barcode_position`: a barcode
row matching the requested barcode contributes its stage position when its
`stage` resolves in the catalog (inner join), otherwise nothing. -/
def joinPos (stages : List Stage) (barcode : String) (r : BarcodeRow) :
    Option Int :=
  if r.barcode = barcode then (find_stage stages r.stage).map Stage.position
  else none

/-- Embeds `current_barcode_position`: the position of the barcode's
current stage via a join of `dbo.barcodes` with `dbo.stages`, or `none`
if the barcode was never seen (`fetchone` returning no row). -/
def current_barcode_position (db : DB) (barcode : String) : Option Int :=
  (db.barcodes.filterMap (joinPos db.stages barcode)).head?

/-- Embeds `classify_barcode` verbatim: `None -> "new"`,
`existing_pos < target_pos -> "old"`, otherwise `"same"`. -/
def classify_barcode (existing_pos : Option Int) (target_pos : Int) :
    Classification :=
  match existing_pos with
  | none => Classification.new
  | some p =>
      if p < target_pos then Classification.old else Classification.same

/-- Embeds `add_new_barcode`: `INSERT INTO dbo.barcodes` with
`created_date = last_updated = now`. -/
def add_new_barcode (db : DB) (barcode : String) (stage : Stage)
    (now : DateTime) : DB :=
  { db with
    barcodes := db.barcodes ++ [⟨barcode, stage.stage_name, now, now⟩] }

/-- The row transformer of `advance_barcode`'s
`UPDATE dbo.barcodes SET stage = ?, last_updated = ? WHERE barcode = ?`. -/
def advance_row (stage : Stage) (now : DateTime) (barcode : String)
    (r : BarcodeRow) : BarcodeRow :=
  if r.barcode = barcode then
    { r with stage := stage.stage_name, last_updated := now }
  else r

/-- Embeds `advance_barcode`: update stage and `last_updated` of the rows
matching the barcode; `created_date` is not in the SET list. -/
def advance_barcode (db : DB) (barcode : String) (stage : Stage)
    (now : DateTime) : DB :=
  { db with barcodes := db.barcodes.map (advance_row stage now barcode) }

/-- Embeds `add_event`: `INSERT INTO dbo.events` with the reported stage
name and the given (caller-supplied) event time. -/
def add_event (db : DB) (barcode : String) (stage : Stage)
    (event_time : DateTime) : DB :=
  { db with events := db.events ++ [⟨barcode, stage.stage_name, event_time⟩] }

/-- `processed[cls] += 1` of the ingest loop. -/
def Counts.incr (c : Counts) : Classification → Counts
  | Classification.new => { c with new := c.new + 1 }
  | Classification.old => { c with old := c.old + 1 }
  | Classification.same => { c with same := c.same + 1 }

/-- The body of the ingest route's `for b in p.barcodes` loop: look up the
current position, classify, write the barcode-state store on `new`/`old`
(nothing on `same`), always append one event, bump the counter. -/
def processBarcode (stage : Stage) (event_time now : DateTime)
    (acc : DB × Counts) (b : String) : DB × Counts :=
  let pos := current_barcode_position acc.1 b
  let cls := classify_barcode pos stage.position
  let db1 :=
    match cls with
    | Classification.new => add_new_barcode acc.1 b stage now
    | Classification.old => advance_barcode acc.1 b stage now
    | Classification.same => acc.1
  (add_event db1 b stage event_time, acc.2.incr cls)

/-- The validated `IngestPayload` pydantic model (after its field
validators have run): a non-empty stage name, the cleaned barcode list and
the localized event time. -/
structure IngestPayload where
  stage_name : String
  barcodes : List String
  event_time : DateTime
deriving DecidableEq, Repr

/-- Embeds the `POST /ingest` route body on a validated payload: resolve
the stage (404 when absent, before any write), then fold the loop body
over the batch and return the aggregate counts.  The database component of
the result is the store state after the call (autocommitted writes). -/
def ingest (db : DB) (p : IngestPayload) (now : DateTime) :
    DB × Except HTTPError IngestResponse :=
  match get_stage db p.stage_name with
  | none =>
      (db, Except.error ⟨404, "Stage " ++ p.stage_name ++ " not found"⟩)
  | some stage =>
      let r := p.barcodes.foldl (processBarcode stage p.event_time now)
        (db, ⟨0, 0, 0⟩)
      (r.1, Except.ok
        ⟨stage.stage_name, stage.position, r.2, "Finished processing barcodes."⟩)

/-- Model of Python's `str.strip()`: drop leading and trailing whitespace
characters. -/
def strip (s : String) : String :=
  ⟨((s.data.dropWhile Char.isWhitespace).reverse.dropWhile
      Char.isWhitespace).reverse⟩

/-- The list comprehension of `ensure_barcodes_nonempty`:
`[b.strip() for b in v if b and b.strip()]` (keep a stripped entry when
the original is non-empty and its stripped form is non-empty). -/
def clean_barcodes : List String → List String
  | [] => []
  | b :: rest =>
      if b ≠ "" ∧ strip b ≠ "" then strip b :: clean_barcodes rest
      else clean_barcodes rest

/-- Embeds the `ensure_barcodes_nonempty` field validator: clean the list,
fail when nothing remains. -/
def ensure_barcodes_nonempty (v : List String) :
    Except String (List String) :=
  match clean_barcodes v with
  | [] => Except.error "at least one non-empty barcode is required"
  | b :: rest => Except.ok (b :: rest)

/-- Embeds the `localize_event_time` field validator: a naive datetime is
made timezone-aware in America/Chicago, an aware one is kept as given. -/
def localize_event_time (dt : DateTime) : DateTime :=
  if dt.tzinfo = none then { dt with tzinfo := some "America/Chicago" }
  else dt

/-- The raw request body of `POST /ingest`, before pydantic validation. -/
structure RawPayload where
  stage_name : String
  barcodes : List String
  event_time : DateTime
deriving DecidableEq, Repr

/-- Pydantic validation of `IngestPayload`: the `min_length` constraints
on `stage_name` and `barcodes` and the two field validators.  A failure is
FastAPI's 422 request-validation error, produced before the route body
(and hence any storage access) runs. -/
def validate_payload (raw : RawPayload) : Except HTTPError IngestPayload :=
  if raw.stage_name.length < 1 then
    Except.error ⟨422, "stage_name must have at least 1 character"⟩
  else if raw.barcodes.length < 1 then
    Except.error ⟨422, "barcodes must have at least 1 item"⟩
  else
    match ensure_barcodes_nonempty raw.barcodes with
    | Except.error m => Except.error ⟨422, m⟩
    | Except.ok cleaned =>
        Except.ok ⟨raw.stage_name, cleaned, localize_event_time raw.event_time⟩

/-- The full `POST /ingest` request pipeline: pydantic validation, then
the route body.  On a validation error the route body never runs, so the
database is returned untouched. -/
def handle_ingest (db : DB) (raw : RawPayload) (now : DateTime) :
    DB × Except HTTPError IngestResponse :=
  match validate_payload raw with
  | Except.error e => (db, Except.error e)
  | Except.ok p => ingest db p now

/-- Sequential execution of several ingest requests (each with its own
wall-clock `now`), threading the database state. -/
def run_ingests (db : DB) : List (IngestPayload × DateTime) → DB
  | [] => db
  | r :: rest => run_ingests (ingest db r.1 r.2).1 rest

/-- Repeated submission of one fixed payload (each run with its own
wall-clock `now`), threading the database state. -/
def repeat_ingest (db : DB) (p : IngestPayload) : List DateTime → DB
  | [] => db
  | n :: rest => repeat_ingest (ingest db p n).1 p rest

/-- Failure-injection model of the ingest loop over the autocommitting
pyodbc connection (`get_conn` opens with `autocommit=True`, so every
executed statement persists immediately).  `failsAt j = true` means the
first storage access for the batch's `j`-th barcode raises `pyodbc.Error`;
the exception aborts the loop, the writes already executed stay committed,
and the route's `except pyodbc.Error` handler turns it into a 500. -/
def ingest_loop_failing (stage : Stage) (event_time now : DateTime)
    (failsAt : Nat → Bool) :
    List String → Nat → DB × Counts → DB × Except HTTPError Counts
  | [], _, acc => (acc.1, Except.ok acc.2)
  | b :: rest, j, acc =>
      if failsAt j then
        (acc.1, Except.error ⟨500, "Database error"⟩)
      else
        ingest_loop_failing stage event_time now failsAt rest (j + 1)
          (processBarcode stage event_time now acc b)

/-- The ingest route under the failure-injection model of
`ingest_loop_failing`: stage resolution as in `ingest`, then the fallible
loop; a loop failure surfaces as the 500 response while the database keeps
every write committed before the failure. -/
def ingest_failing (db : DB) (p : IngestPayload) (now : DateTime)
    (failsAt : Nat → Bool) : DB × Except HTTPError IngestResponse :=
  match get_stage db p.stage_name with
  | none =>
      (db, Except.error ⟨404, "Stage " ++ p.stage_name ++ " not found"⟩)
  | some stage =>
      match ingest_loop_failing stage p.event_time now failsAt p.barcodes 0
          (db, ⟨0, 0, 0⟩) with
      | (db1, Except.error e) => (db1, Except.error e)
      | (db1, Except.ok c) =>
          (db1, Except.ok
            ⟨stage.stage_name, stage.position, c, "Finished processing barcodes."⟩)

/-! Concrete sample data, mirroring the spec's scenario catalog
`{Receiving:0, Packing:1, Shipped:2}`; used to instantiate theorems. -/

/-- Sample stage catalog of the spec's scenarios. -/
def sampleStages : List Stage := [⟨"Receiving", 0⟩, ⟨"Packing", 1⟩, ⟨"Shipped", 2⟩]

/-- Sample timezone-aware timestamp. -/
def T0 : DateTime := ⟨0, some "UTC"⟩

/-- Sample timezone-aware timestamp. -/
def T1 : DateTime := ⟨1, some "UTC"⟩

/-- Sample timezone-aware timestamp. -/
def T3 : DateTime := ⟨3, some "UTC"⟩

/-- Sample database: the catalog with empty stores. -/
def db0 : DB := ⟨sampleStages, [], []⟩

/-- Sample database with barcode B1 stored at Packing (position 1). -/
def dbB : DB := ⟨sampleStages, [⟨"B1", "Packing", T0, T0⟩], []⟩

/-- Sample database with barcode B1 stored at Shipped (position 2). -/
def dbC : DB := ⟨sampleStages, [⟨"B1", "Shipped", T0, T0⟩], []⟩

/-! Basic effect lemmas about the loop body and the fold. -/

/-- The loop body never touches the stage catalog. -/
theorem processBarcode_stages (s : Stage) (et now : DateTime)
    (acc : DB × Counts) (b : String) :
    ((processBarcode s et now acc b).1).stages = acc.1.stages := by
  unfold processBarcode
  cases h : classify_barcode (current_barcode_position acc.1 b) s.position <;>
    simp [h, add_event, add_new_barcode, advance_barcode]

/-- The loop body appends exactly one event row, carrying the reported
stage name and the given event time, whatever the classification. -/
theorem processBarcode_events (s : Stage) (et now : DateTime)
    (acc : DB × Counts) (b : String) :
    ((processBarcode s et now acc b).1).events
      = acc.1.events ++ [⟨b, s.stage_name, et⟩] := by
  unfold processBarcode
  cases h : classify_barcode (current_barcode_position acc.1 b) s.position <;>
    simp [h, add_event, add_new_barcode, advance_barcode]

/-- Folding the loop body preserves the stage catalog. -/
theorem foldl_processBarcode_stages (s : Stage) (et now : DateTime)
    (bs : List String) (acc : DB × Counts) :
    ((bs.foldl (processBarcode s et now) acc).1).stages = acc.1.stages := by
  induction bs generalizing acc with
  | nil => rfl
  | cons b rest ih =>
      simpa [List.foldl_cons, processBarcode_stages] using
        (ih (processBarcode s et now acc b)).trans
          (processBarcode_stages s et now acc b)

/-- Folding the loop body appends one event row per barcode occurrence, in
batch order. -/
theorem foldl_processBarcode_events (s : Stage) (et now : DateTime)
    (bs : List String) (acc : DB × Counts) :
    ((bs.foldl (processBarcode s et now) acc).1).events
      = acc.1.events ++ bs.map (fun b => ⟨b, s.stage_name, et⟩) := by
  induction bs generalizing acc with
  | nil => simp
  | cons b rest ih =>
      rw [List.foldl_cons, ih (processBarcode s et now acc b),
        processBarcode_events]
      simp

/-- A successful or failed ingest call never touches the stage catalog. -/
theorem ingest_stages (db : DB) (p : IngestPayload) (now : DateTime) :
    ((ingest db p now).1).stages = db.stages := by
  unfold ingest
  cases h : get_stage db p.stage_name with
  | none => rfl
  | some s => simpa using foldl_processBarcode_stages s p.event_time now p.barcodes (db, ⟨0, 0, 0⟩)

/-- C1: the classifier is the three-way rule: a never-seen barcode
(`existing_pos = none`) is NEW for every target position; an existing
position strictly below the target is ADVANCE (code label "old"); an
existing position at or past the target is NOOP (code label "same"). -/
theorem classify_barcode_three_way_rule :
    (∀ p : Int, classify_barcode none p = Classification.new) ∧
    (∀ existing target : Int, existing < target →
      classify_barcode (some existing) target = Classification.old) ∧
    (∀ existing target : Int, target ≤ existing →
      classify_barcode (some existing) target = Classification.same) := by
  refine ⟨fun _ => rfl, fun e t h => ?_, fun e t h => ?_⟩
  · simp [classify_barcode, h]
  · simp [classify_barcode, not_lt.mpr h]

/-- Witness for C1 at concrete positions. -/
theorem classify_barcode_three_way_rule_witness :
    classify_barcode none 5 = Classification.new ∧
    ((1 : Int) < 2 ∧ classify_barcode (some 1) 2 = Classification.old) ∧
    ((2 : Int) ≤ 3 ∧ classify_barcode (some 3) 2 = Classification.same) :=
  ⟨classify_barcode_three_way_rule.1 5,
   ⟨by decide, classify_barcode_three_way_rule.2.1 1 2 (by decide)⟩,
   ⟨by decide, classify_barcode_three_way_rule.2.2 3 2 (by decide)⟩⟩

/-- C2: a successful ingest of a (cleaned) batch of N barcodes appends
exactly N rows to the event log — one per barcode occurrence, whatever
the classification — each carrying the reported stage name and the
caller-supplied event time. -/
theorem ingest_appends_one_event_per_barcode (db : DB) (p : IngestPayload)
    (now : DateTime) (stage : Stage)
    (h : get_stage db p.stage_name = some stage) :
    ((ingest db p now).1).events
      = db.events ++ p.barcodes.map (fun b => ⟨b, stage.stage_name, p.event_time⟩) ∧
    ((ingest db p now).1).events.length
      = db.events.length + p.barcodes.length := by
  have he : ((ingest db p now).1).events
      = db.events ++ p.barcodes.map (fun b => ⟨b, stage.stage_name, p.event_time⟩) := by
    unfold ingest
    rw [h]
    simpa using
      foldl_processBarcode_events stage p.event_time now p.barcodes (db, ⟨0, 0, 0⟩)
  exact ⟨he, by simp [he]⟩

/-- Witness for C2: scenario A's batch of two barcodes appends two event
rows. -/
theorem ingest_appends_one_event_per_barcode_witness :
    get_stage db0 "Packing" = some ⟨"Packing", 1⟩ ∧
    ((ingest db0 ⟨"Packing", ["B1", "B2"], T1⟩ T0).1).events
      = db0.events ++ [⟨"B1", "Packing", T1⟩, ⟨"B2", "Packing", T1⟩] ∧
    ((ingest db0 ⟨"Packing", ["B1", "B2"], T1⟩ T0).1).events.length
      = db0.events.length + 2 :=
  ⟨by decide,
   (ingest_appends_one_event_per_barcode db0 ⟨"Packing", ["B1", "B2"], T1⟩ T0
      ⟨"Packing", 1⟩ (by decide)).1,
   (ingest_appends_one_event_per_barcode db0 ⟨"Packing", ["B1", "B2"], T1⟩ T0
      ⟨"Packing", 1⟩ (by decide)).2⟩

/-- C6: an ingest request naming a stage absent from the catalog fails
with the distinct 404 not-found error (not a generic failure) and makes
zero writes to either store: the returned state is the input state. -/
theorem ingest_unknown_stage_rejected (db : DB) (p : IngestPayload)
    (now : DateTime) (h : get_stage db p.stage_name = none) :
    (ingest db p now).1 = db ∧
    (ingest db p now).2
      = Except.error ⟨404, "Stage " ++ p.stage_name ++ " not found"⟩ := by
  unfold ingest
  rw [h]
  exact ⟨rfl, rfl⟩

/-- Witness for C6: scenario D's unknown stage. -/
theorem ingest_unknown_stage_rejected_witness :
    get_stage db0 "Unknown" = none ∧
    (ingest db0 ⟨"Unknown", ["B1"], T1⟩ T0).1 = db0 ∧
    (ingest db0 ⟨"Unknown", ["B1"], T1⟩ T0).2
      = Except.error ⟨404, "Stage " ++ "Unknown" ++ " not found"⟩ :=
  ⟨by decide,
   (ingest_unknown_stage_rejected db0 ⟨"Unknown", ["B1"], T1⟩ T0 (by decide)).1,
   (ingest_unknown_stage_rejected db0 ⟨"Unknown", ["B1"], T1⟩ T0 (by decide)).2⟩

/-- C7: barcode entries are stripped and empty entries dropped, and a
request whose barcode list is empty after cleaning is rejected with a 422
validation error before the route body runs, leaving both stores
untouched. -/
theorem validation_rejects_empty_barcodes (db : DB) (raw : RawPayload)
    (now : DateTime) (h : clean_barcodes raw.barcodes = []) :
    (handle_ingest db raw now).1 = db ∧
    (∃ e, (handle_ingest db raw now).2 = Except.error e ∧ e.status_code = 422) ∧
    (∀ v, clean_barcodes v = (v.map strip).filter (fun b => !(b == ""))) := by
  refine ⟨?_, ?_, ?_⟩
  · unfold handle_ingest validate_payload
    by_cases h1 : raw.stage_name.length < 1
    · simp [h1]
    · by_cases h2 : raw.barcodes.length < 1
      · simp [h1, h2]
      · simp [h1, h2, ensure_barcodes_nonempty, h]
  · unfold handle_ingest validate_payload
    by_cases h1 : raw.stage_name.length < 1
    · exact ⟨⟨422, "stage_name must have at least 1 character"⟩,
        by simp [h1], rfl⟩
    · by_cases h2 : raw.barcodes.length < 1
      · exact ⟨⟨422, "barcodes must have at least 1 item"⟩,
          by simp [h1, h2], rfl⟩
      · exact ⟨⟨422, "at least one non-empty barcode is required"⟩,
          by simp [h1, h2, ensure_barcodes_nonempty, h], rfl⟩
  · intro v
    induction v with
    | nil => rfl
    | cons b rest ih =>
        by_cases hb : strip b = ""
        · have hbeq : (strip b == "") = true := by simp [hb]
          simp [clean_barcodes, hb, hbeq, ih]
        · have hb0 : b ≠ "" := by
            intro hb'
            exact hb (by rw [hb']; rfl)
          have hbeq : (strip b == "") = false := by simp [hb]
          simp [clean_barcodes, hb, hb0, hbeq, ih]

/-- Witness for C7: scenario E's whitespace-only barcode list. -/
theorem validation_rejects_empty_barcodes_witness :
    clean_barcodes ["  ", ""] = [] ∧
    (handle_ingest db0 ⟨"Packing", ["  ", ""], T1⟩ T0).1 = db0 ∧
    (∃ e, (handle_ingest db0 ⟨"Packing", ["  ", ""], T1⟩ T0).2
        = Except.error e ∧ e.status_code = 422) :=
  ⟨by decide,
   (validation_rejects_empty_barcodes db0 ⟨"Packing", ["  ", ""], T1⟩ T0
      (by decide)).1,
   (validation_rejects_empty_barcodes db0 ⟨"Packing", ["  ", ""], T1⟩ T0
      (by decide)).2.1⟩

/-- C8: the validated payload's event time is the caller's event time
after localization — a naive timestamp gets the fixed America/Chicago
zone, an aware one is kept as given — and `add_event` stores exactly that
value in the appended event row, never the server clock. -/
theorem event_time_localization (db : DB) (raw : RawPayload)
    (p : IngestPayload) (hv : validate_payload raw = Except.ok p) :
    p.event_time = localize_event_time raw.event_time ∧
    (raw.event_time.tzinfo = none →
      p.event_time = { raw.event_time with tzinfo := some "America/Chicago" }) ∧
    (raw.event_time.tzinfo ≠ none → p.event_time = raw.event_time) ∧
    (∀ stage b, (add_event db b stage p.event_time).events
      = db.events ++ [⟨b, stage.stage_name, p.event_time⟩]) := by
  have hp : p.event_time = localize_event_time raw.event_time := by
    unfold validate_payload at hv
    by_cases h1 : raw.stage_name.length < 1
    · simp [h1] at hv
    · by_cases h2 : raw.barcodes.length < 1
      · simp [h1, h2] at hv
      · simp only [h1, h2, if_false] at hv
        cases he : ensure_barcodes_nonempty raw.barcodes with
        | error m => rw [he] at hv; cases hv
        | ok cleaned =>
            rw [he] at hv
            cases hv
            rfl
  refine ⟨hp, ?_, ?_, ?_⟩
  · intro hn
    rw [hp]
    simp [localize_event_time, hn]
  · intro hn
    rw [hp]
    simp [localize_event_time, hn]
  · intro stage b
    simp [add_event]

/-- Witness for C8: a naive caller timestamp gets the Chicago zone and is
stored as such. -/
theorem event_time_localization_witness :
    validate_payload ⟨"Packing", ["B1"], ⟨5, none⟩⟩
      = Except.ok ⟨"Packing", ["B1"], ⟨5, some "America/Chicago"⟩⟩ ∧
    (⟨"Packing", ["B1"], ⟨5, some "America/Chicago"⟩⟩ : IngestPayload).event_time
      = localize_event_time (⟨5, none⟩ : DateTime) ∧
    (add_event db0 "B1" ⟨"Packing", 1⟩ ⟨5, some "America/Chicago"⟩).events
      = db0.events ++ [⟨"B1", "Packing", ⟨5, some "America/Chicago"⟩⟩] :=
  ⟨by rfl,
   (event_time_localization db0 ⟨"Packing", ["B1"], ⟨5, none⟩⟩
      ⟨"Packing", ["B1"], ⟨5, some "America/Chicago"⟩⟩ (by rfl)).1,
   (event_time_localization db0 ⟨"Packing", ["B1"], ⟨5, none⟩⟩
      ⟨"Packing", ["B1"], ⟨5, some "America/Chicago"⟩⟩ (by rfl)).2.2.2
     ⟨"Packing", 1⟩ "B1"⟩

/-- C5: frame conditions of the per-barcode writes, on a one-barcode
batch against a resolved stage.  An event row with the reported stage and
caller time is always appended; on NOOP (stored position at or past the
target) the barcode-state store is unchanged; on ADVANCE (stored position
strictly below the target) the store is rewritten row-wise by
`advance_row`, which touches only the `stage` and `last_updated` columns
of the rows matching the barcode — every row keeps its `barcode` and
`created_date`. -/
theorem ingest_frame_conditions (db : DB) (sn b : String)
    (et now : DateTime) (stage : Stage) (hs : get_stage db sn = some stage)
    (p : Int) (hp : current_barcode_position db b = some p) :
    ((ingest db ⟨sn, [b], et⟩ now).1).events
      = db.events ++ [⟨b, stage.stage_name, et⟩] ∧
    (stage.position ≤ p →
      ((ingest db ⟨sn, [b], et⟩ now).1).barcodes = db.barcodes) ∧
    (p < stage.position →
      ((ingest db ⟨sn, [b], et⟩ now).1).barcodes
        = db.barcodes.map (advance_row stage now b)) ∧
    (∀ r, (advance_row stage now b r).barcode = r.barcode ∧
          (advance_row stage now b r).created_date = r.created_date) := by
  have hing : ingest db ⟨sn, [b], et⟩ now
      = ((processBarcode stage et now (db, ⟨0, 0, 0⟩) b).1,
         Except.ok ⟨stage.stage_name, stage.position,
           (processBarcode stage et now (db, ⟨0, 0, 0⟩) b).2,
           "Finished processing barcodes."⟩) := by
    unfold ingest
    rw [hs]
    rfl
  refine ⟨?_, ?_, ?_, ?_⟩
  · rw [hing]
    simpa using processBarcode_events stage et now (db, ⟨0, 0, 0⟩) b
  · intro hle
    rw [hing]
    unfold processBarcode
    simp [hp, classify_barcode, not_lt.mpr hle, add_event]
  · intro hlt
    rw [hing]
    unfold processBarcode
    simp [hp, classify_barcode, hlt, add_event, advance_barcode]
  · intro r
    unfold advance_row
    split <;> simp

/-- Witness for C5: scenario C's stale NOOP report leaves B1's row at
Shipped, and scenario B's ADVANCE rewrites only stage and last_updated. -/
theorem ingest_frame_conditions_witness :
    (get_stage dbC "Packing" = some ⟨"Packing", 1⟩ ∧
     current_barcode_position dbC "B1" = some 2 ∧
     ((ingest dbC ⟨"Packing", ["B1"], T3⟩ T0).1).events
       = dbC.events ++ [⟨"B1", "Packing", T3⟩] ∧
     (1 : Int) ≤ 2 ∧
     ((ingest dbC ⟨"Packing", ["B1"], T3⟩ T0).1).barcodes = dbC.barcodes) ∧
    (get_stage dbB "Shipped" = some ⟨"Shipped", 2⟩ ∧
     current_barcode_position dbB "B1" = some 1 ∧
     (1 : Int) < 2 ∧
     ((ingest dbB ⟨"Shipped", ["B1"], T1⟩ T0).1).barcodes
       = dbB.barcodes.map (advance_row ⟨"Shipped", 2⟩ T0 "B1")) :=
  ⟨⟨by decide, by decide,
    (ingest_frame_conditions dbC "Packing" "B1" T3 T0 ⟨"Packing", 1⟩
      (by decide) 2 (by decide)).1,
    by decide,
    (ingest_frame_conditions dbC "Packing" "B1" T3 T0 ⟨"Packing", 1⟩
      (by decide) 2 (by decide)).2.1 (by decide)⟩,
   ⟨by decide, by decide, by decide,
    (ingest_frame_conditions dbB "Shipped" "B1" T1 T0 ⟨"Shipped", 2⟩
      (by decide) 1 (by decide)).2.2.1 (by decide)⟩⟩

/-! Lemmas about `current_barcode_position` under the store writes, the
backbone of the monotonicity, idempotence and duplicate-handling claims. -/

/-- A stage found by name carries that name. -/
theorem find_stage_name (l : List Stage) (n : String) (s : Stage)
    (h : find_stage l n = some s) : s.stage_name = n := by
  induction l with
  | nil => cases h
  | cons t rest ih =>
      unfold find_stage at h
      by_cases ht : t.stage_name = n
      · rw [if_pos ht] at h
        cases h
        exact ht
      · rw [if_neg ht] at h
        exact ih h

/-- Looking a found stage up again by its own name finds it again. -/
theorem find_stage_self (l : List Stage) (n : String) (s : Stage)
    (h : find_stage l n = some s) : find_stage l s.stage_name = some s := by
  rw [find_stage_name l n s h]
  exact h

/-- Appending an event row never changes any barcode's looked-up
position. -/
theorem cbp_add_event (db : DB) (c : String) (stage : Stage)
    (et : DateTime) (b : String) :
    current_barcode_position (add_event db c stage et) b
      = current_barcode_position db b := rfl

/-- Inserting a state row for a different barcode never changes a
barcode's looked-up position. -/
theorem cbp_add_new_other (db : DB) (c : String) (stage : Stage)
    (now : DateTime) (b : String) (hbc : b ≠ c) :
    current_barcode_position (add_new_barcode db c stage now) b
      = current_barcode_position db b := by
  unfold current_barcode_position add_new_barcode
  simp [List.filterMap_append, joinPos, Ne.symm hbc]

/-- Inserting a state row for a never-seen barcode makes its looked-up
position the inserted stage's catalog position. -/
theorem cbp_add_new_self (db : DB) (c : String) (stage : Stage)
    (now : DateTime) (h : current_barcode_position db c = none) :
    current_barcode_position (add_new_barcode db c stage now) c
      = (find_stage db.stages stage.stage_name).map Stage.position := by
  unfold current_barcode_position at h
  rw [List.head?_eq_none_iff] at h
  unfold current_barcode_position add_new_barcode
  cases hf : find_stage db.stages stage.stage_name with
  | none => simp [List.filterMap_append, h, joinPos, hf]
  | some s => simp [List.filterMap_append, h, joinPos, hf]

/-- The advance-row transformer is invisible to lookups of a different
barcode. -/
theorem joinPos_advance_row_other (st : List Stage) (stage : Stage)
    (now : DateTime) (c b : String) (hbc : b ≠ c) (r : BarcodeRow) :
    joinPos st b (advance_row stage now c r) = joinPos st b r := by
  unfold advance_row joinPos
  by_cases hr : r.barcode = c
  · simp [hr, Ne.symm hbc]
  · simp [hr]

/-- Advancing a different barcode never changes a barcode's looked-up
position. -/
theorem cbp_advance_other (db : DB) (c : String) (stage : Stage)
    (now : DateTime) (b : String) (hbc : b ≠ c) :
    current_barcode_position (advance_barcode db c stage now) b
      = current_barcode_position db b := by
  unfold current_barcode_position advance_barcode
  have hcomp : joinPos db.stages b ∘ advance_row stage now c
      = joinPos db.stages b := by
    funext r
    exact joinPos_advance_row_other db.stages stage now c b hbc r
  simp only [List.filterMap_map, hcomp]

/-- After advancing a seen barcode to a catalog stage, its looked-up
position is that stage's position (list form). -/
theorem filterMap_advance_head (st : List Stage) (c : String)
    (stage : Stage) (now : DateTime) (l : List BarcodeRow) (p : Int)
    (hc : (l.filterMap (joinPos st c)).head? = some p)
    (hs : find_stage st stage.stage_name = some stage) :
    (l.filterMap (joinPos st c ∘ advance_row stage now c)).head?
      = some stage.position := by
  induction l with
  | nil => simp at hc
  | cons r t ih =>
      by_cases hr : r.barcode = c
      · simp [List.filterMap_cons, joinPos, advance_row, hr, hs]
      · have hnone : joinPos st c r = none := by simp [joinPos, hr]
        rw [List.filterMap_cons, hnone] at hc
        have hnone2 : (joinPos st c ∘ advance_row stage now c) r = none := by
          simp [joinPos, advance_row, hr]
        rw [List.filterMap_cons, hnone2]
        exact ih hc

/-- Advancing a seen barcode to a catalog stage sets its looked-up
position to that stage's position. -/
theorem cbp_advance_self (db : DB) (c : String) (stage : Stage)
    (now : DateTime) (p : Int)
    (hc : current_barcode_position db c = some p)
    (hs : find_stage db.stages stage.stage_name = some stage) :
    current_barcode_position (advance_barcode db c stage now) c
      = some stage.position := by
  unfold current_barcode_position advance_barcode at *
  rw [List.filterMap_map]
  exact filterMap_advance_head db.stages c stage now db.barcodes p hc hs

/-- One loop-body step never decreases the looked-up position of any
barcode. -/
theorem processBarcode_cbp_mono (stage : Stage) (et now : DateTime)
    (acc : DB × Counts) (c : String)
    (hs : find_stage acc.1.stages stage.stage_name = some stage)
    (b : String) (p : Int)
    (hb : current_barcode_position acc.1 b = some p) :
    ∃ q, current_barcode_position ((processBarcode stage et now acc c).1) b
        = some q ∧ p ≤ q := by
  by_cases hbc : b = c
  · subst hbc
    by_cases hlt : p < stage.position
    · refine ⟨stage.position, ?_, le_of_lt hlt⟩
      unfold processBarcode
      simp only [hb, classify_barcode, if_pos hlt]
      rw [cbp_add_event]
      exact cbp_advance_self acc.1 b stage now p hb hs
    · refine ⟨p, ?_, le_refl p⟩
      unfold processBarcode
      simp only [hb, classify_barcode, if_neg hlt]
      rw [cbp_add_event]
      exact hb
  · refine ⟨p, ?_, le_refl p⟩
    unfold processBarcode
    cases hcls : classify_barcode (current_barcode_position acc.1 c)
        stage.position with
    | new =>
        simp only [hcls]
        rw [cbp_add_event, cbp_add_new_other acc.1 c stage now b hbc]
        exact hb
    | old =>
        simp only [hcls]
        rw [cbp_add_event, cbp_advance_other acc.1 c stage now b hbc]
        exact hb
    | same =>
        simp only [hcls]
        rw [cbp_add_event]
        exact hb

/-- Folding the loop body over a batch never decreases the looked-up
position of any barcode. -/
theorem foldl_cbp_mono (stage : Stage) (et now : DateTime)
    (bs : List String) (acc : DB × Counts)
    (hs : find_stage acc.1.stages stage.stage_name = some stage)
    (b : String) (p : Int)
    (hb : current_barcode_position acc.1 b = some p) :
    ∃ q, current_barcode_position
        ((bs.foldl (processBarcode stage et now) acc).1) b = some q ∧
      p ≤ q := by
  induction bs generalizing acc p with
  | nil => exact ⟨p, hb, le_refl p⟩
  | cons c rest ih =>
      obtain ⟨q, hq, hpq⟩ := processBarcode_cbp_mono stage et now acc c hs b p hb
      have hs' : find_stage ((processBarcode stage et now acc c).1).stages
          stage.stage_name = some stage := by
        rw [processBarcode_stages]
        exact hs
      obtain ⟨q', hq', hqq'⟩ := ih (processBarcode stage et now acc c) hs' q hq
      exact ⟨q', by simpa using hq', le_trans hpq hqq'⟩

/-- A single ingest call never decreases the looked-up position of any
barcode. -/
theorem ingest_cbp_mono (db : DB) (p : IngestPayload) (now : DateTime)
    (b : String) (pos : Int)
    (hb : current_barcode_position db b = some pos) :
    ∃ q, current_barcode_position ((ingest db p now).1) b = some q ∧
      pos ≤ q := by
  unfold ingest
  cases hs : get_stage db p.stage_name with
  | none => exact ⟨pos, hb, le_refl pos⟩
  | some stage =>
      have hs' : find_stage db.stages stage.stage_name = some stage :=
        find_stage_self db.stages p.stage_name stage hs
      simpa using foldl_cbp_mono stage p.event_time now p.barcodes
        (db, ⟨0, 0, 0⟩) hs' b pos hb

/-- C3: monotonicity — across any sequence of sequentially executed
ingest calls, a barcode's stored position (its state row's stage,
projected to the catalog) never decreases: the engine writes the target
stage only when the stored position is strictly below the target and
writes nothing otherwise. -/
theorem run_ingests_monotone (db : DB)
    (reqs : List (IngestPayload × DateTime)) (b : String) (p : Int)
    (hb : current_barcode_position db b = some p) :
    ∃ q, current_barcode_position (run_ingests db reqs) b = some q ∧
      p ≤ q := by
  induction reqs generalizing db p with
  | nil => exact ⟨p, hb, le_refl p⟩
  | cons r rest ih =>
      obtain ⟨q, hq, hpq⟩ := ingest_cbp_mono db r.1 r.2 b p hb
      obtain ⟨q', hq', hqq'⟩ := ih (ingest db r.1 r.2).1 q hq
      exact ⟨q', by simpa [run_ingests] using hq', le_trans hpq hqq'⟩

/-- Witness for C3: B1 stored at Packing (position 1), then reported at
Shipped and again (stale) at Receiving — its position never drops below
1. -/
theorem run_ingests_monotone_witness :
    current_barcode_position dbB "B1" = some 1 ∧
    ∃ q, current_barcode_position
        (run_ingests dbB [(⟨"Shipped", ["B1"], T1⟩, T1),
                          (⟨"Receiving", ["B1"], T3⟩, T3)]) "B1" = some q ∧
      (1 : Int) ≤ q :=
  ⟨by decide,
   run_ingests_monotone dbB [(⟨"Shipped", ["B1"], T1⟩, T1),
     (⟨"Receiving", ["B1"], T3⟩, T3)] "B1" 1 (by decide)⟩

/-! Step equations of the loop body per classification outcome. -/

/-- On a never-seen barcode the loop body inserts a state row and appends
an event, counting it as "new". -/
theorem processBarcode_new_eq (stage : Stage) (et now : DateTime)
    (acc : DB × Counts) (c : String)
    (hc : current_barcode_position acc.1 c = none) :
    processBarcode stage et now acc c
      = (add_event (add_new_barcode acc.1 c stage now) c stage et,
         acc.2.incr Classification.new) := by
  unfold processBarcode
  simp only [hc, classify_barcode]

/-- On a barcode strictly below the target the loop body advances its
state row and appends an event, counting it as "old". -/
theorem processBarcode_old_eq (stage : Stage) (et now : DateTime)
    (acc : DB × Counts) (c : String) (p : Int)
    (hc : current_barcode_position acc.1 c = some p)
    (hlt : p < stage.position) :
    processBarcode stage et now acc c
      = (add_event (advance_barcode acc.1 c stage now) c stage et,
         acc.2.incr Classification.old) := by
  unfold processBarcode
  simp only [hc, classify_barcode, if_pos hlt]

/-- On a barcode at or past the target the loop body only appends an
event, counting it as "same". -/
theorem processBarcode_same_eq (stage : Stage) (et now : DateTime)
    (acc : DB × Counts) (c : String) (p : Int)
    (hc : current_barcode_position acc.1 c = some p)
    (hge : ¬ p < stage.position) :
    processBarcode stage et now acc c
      = (add_event acc.1 c stage et, acc.2.incr Classification.same) := by
  unfold processBarcode
  simp only [hc, classify_barcode, if_neg hge]

/-- Folding the loop body over a duplicate-free batch of never-seen
barcodes counts every occurrence as "new" and leaves every batch barcode
(and every barcode already at the target position) stored at the target
position. -/
theorem foldl_all_new (stage : Stage) (et now : DateTime)
    (bs : List String) (acc : DB × Counts)
    (hs : find_stage acc.1.stages stage.stage_name = some stage)
    (hnodup : bs.Nodup)
    (hunseen : ∀ b ∈ bs, current_barcode_position acc.1 b = none) :
    (bs.foldl (processBarcode stage et now) acc).2
      = ⟨acc.2.new + bs.length, acc.2.old, acc.2.same⟩ ∧
    (∀ x, (x ∈ bs ∨ current_barcode_position acc.1 x = some stage.position) →
      current_barcode_position ((bs.foldl (processBarcode stage et now) acc).1) x
        = some stage.position) := by
  induction bs generalizing acc with
  | nil =>
      refine ⟨by simp, fun x hx => ?_⟩
      rcases hx with hx | hx
      · simp at hx
      · exact hx
  | cons c rest ih =>
      have hc := hunseen c (List.mem_cons_self c rest)
      have hstep := processBarcode_new_eq stage et now acc c hc
      rw [List.foldl_cons, hstep]
      have hcbp_c : current_barcode_position
          (add_event (add_new_barcode acc.1 c stage now) c stage et) c
            = some stage.position := by
        rw [cbp_add_event, cbp_add_new_self acc.1 c stage now hc, hs]
        rfl
      have hnodup' : rest.Nodup := (List.nodup_cons.mp hnodup).2
      have hcnotin : c ∉ rest := (List.nodup_cons.mp hnodup).1
      have hunseen' : ∀ x ∈ rest, current_barcode_position
          (add_event (add_new_barcode acc.1 c stage now) c stage et) x
            = none := by
        intro x hx
        have hxc : x ≠ c := fun h => hcnotin (h ▸ hx)
        rw [cbp_add_event, cbp_add_new_other acc.1 c stage now x hxc]
        exact hunseen x (List.mem_cons_of_mem c hx)
      obtain ⟨h1, h2⟩ := ih
        (add_event (add_new_barcode acc.1 c stage now) c stage et,
          acc.2.incr Classification.new) hs hnodup' hunseen'
      refine ⟨?_, ?_⟩
      · rw [h1]
        simp [Counts.incr, Nat.add_assoc, Nat.add_comm]
        omega
      · intro x hx
        rcases hx with hx | hx
        · rcases List.mem_cons.mp hx with rfl | hx'
          · exact h2 x (Or.inr hcbp_c)
          · exact h2 x (Or.inl hx')
        · have hxc : x ≠ c := by
            intro h
            rw [h, hc] at hx
            cases hx
          refine h2 x (Or.inr ?_)
          rw [cbp_add_event, cbp_add_new_other acc.1 c stage now x hxc]
          exact hx

/-- Folding the loop body over a batch of barcodes already stored at the
target position counts every occurrence as "same", leaves the
barcode-state store untouched and changes no looked-up position. -/
theorem foldl_all_same (stage : Stage) (et now : DateTime)
    (bs : List String) (acc : DB × Counts)
    (hseen : ∀ b ∈ bs,
      current_barcode_position acc.1 b = some stage.position) :
    ((bs.foldl (processBarcode stage et now) acc).1).barcodes
      = acc.1.barcodes ∧
    (bs.foldl (processBarcode stage et now) acc).2
      = ⟨acc.2.new, acc.2.old, acc.2.same + bs.length⟩ ∧
    (∀ x, current_barcode_position
        ((bs.foldl (processBarcode stage et now) acc).1) x
      = current_barcode_position acc.1 x) := by
  induction bs generalizing acc with
  | nil => exact ⟨rfl, by simp, fun x => rfl⟩
  | cons c rest ih =>
      have hc := hseen c (List.mem_cons_self c rest)
      have hstep := processBarcode_same_eq stage et now acc c stage.position
        hc (lt_irrefl stage.position)
      rw [List.foldl_cons, hstep]
      have hseen' : ∀ x ∈ rest, current_barcode_position
          (add_event acc.1 c stage et, acc.2.incr Classification.same).1 x
            = some stage.position := by
        intro x hx
        exact hseen x (List.mem_cons_of_mem c hx)
      obtain ⟨h1, h2, h3⟩ := ih
        (add_event acc.1 c stage et, acc.2.incr Classification.same) hseen'
      refine ⟨h1, ?_, fun x => h3 x⟩
      rw [h2]
      simp [Counts.incr, Nat.add_assoc, Nat.add_comm]
      omega

/-- An ingest of a duplicate-free batch of never-seen barcodes returns
all-"new" counts and leaves every batch barcode stored at the target
position. -/
theorem ingest_all_new (db : DB) (p : IngestPayload) (now : DateTime)
    (stage : Stage) (hs : get_stage db p.stage_name = some stage)
    (hnodup : p.barcodes.Nodup)
    (hunseen : ∀ b ∈ p.barcodes, current_barcode_position db b = none) :
    (ingest db p now).2 = Except.ok ⟨stage.stage_name, stage.position,
      ⟨p.barcodes.length, 0, 0⟩, "Finished processing barcodes."⟩ ∧
    (∀ b ∈ p.barcodes, current_barcode_position ((ingest db p now).1) b
      = some stage.position) := by
  have hs' : find_stage db.stages stage.stage_name = some stage :=
    find_stage_self db.stages p.stage_name stage hs
  have h1 : ingest db p now
      = ((p.barcodes.foldl (processBarcode stage p.event_time now)
            (db, ⟨0, 0, 0⟩)).1,
         Except.ok ⟨stage.stage_name, stage.position,
           (p.barcodes.foldl (processBarcode stage p.event_time now)
             (db, ⟨0, 0, 0⟩)).2,
           "Finished processing barcodes."⟩) := by
    unfold ingest
    rw [hs]
  obtain ⟨hc, hpos⟩ := foldl_all_new stage p.event_time now p.barcodes
    (db, ⟨0, 0, 0⟩) hs' hnodup hunseen
  constructor
  · rw [h1]
    simp only [hc]
    simp
  · intro b hb
    rw [h1]
    exact hpos b (Or.inl hb)

/-- An ingest of a batch of barcodes already stored at the target
position returns all-"same" counts and leaves the barcode-state store
exactly as it was. -/
theorem ingest_all_same (db : DB) (p : IngestPayload) (now : DateTime)
    (stage : Stage) (hs : get_stage db p.stage_name = some stage)
    (hseen : ∀ b ∈ p.barcodes,
      current_barcode_position db b = some stage.position) :
    (ingest db p now).2 = Except.ok ⟨stage.stage_name, stage.position,
      ⟨0, 0, p.barcodes.length⟩, "Finished processing barcodes."⟩ ∧
    ((ingest db p now).1).barcodes = db.barcodes := by
  have h1 : ingest db p now
      = ((p.barcodes.foldl (processBarcode stage p.event_time now)
            (db, ⟨0, 0, 0⟩)).1,
         Except.ok ⟨stage.stage_name, stage.position,
           (p.barcodes.foldl (processBarcode stage p.event_time now)
             (db, ⟨0, 0, 0⟩)).2,
           "Finished processing barcodes."⟩) := by
    unfold ingest
    rw [hs]
  obtain ⟨hb, hc, _⟩ := foldl_all_same stage p.event_time now p.barcodes
    (db, ⟨0, 0, 0⟩) hseen
  constructor
  · rw [h1]
    simp only [hc]
    simp
  · rw [h1]
    exact hb

/-- Two databases agreeing on catalog and barcode store agree on every
looked-up position (the event log plays no part in lookups). -/
theorem cbp_congr (db' db : DB) (hst : db'.stages = db.stages)
    (hb : db'.barcodes = db.barcodes) (x : String) :
    current_barcode_position db' x = current_barcode_position db x := by
  unfold current_barcode_position
  rw [hst, hb]

/-- C4: idempotence — submitting a duplicate-free batch of never-seen
barcodes against the same target stage classifies every barcode NEW on
the first run and NOOP (never NEW again) on the second and on every later
run, and the barcode-state store after the second run — indeed after any
number of further runs — equals the store after the first. -/
theorem ingest_idempotent (db : DB) (p : IngestPayload)
    (now1 now2 : DateTime) (stage : Stage)
    (hs : get_stage db p.stage_name = some stage)
    (hnodup : p.barcodes.Nodup)
    (hunseen : ∀ b ∈ p.barcodes, current_barcode_position db b = none) :
    (ingest db p now1).2 = Except.ok ⟨stage.stage_name, stage.position,
      ⟨p.barcodes.length, 0, 0⟩, "Finished processing barcodes."⟩ ∧
    (ingest (ingest db p now1).1 p now2).2
      = Except.ok ⟨stage.stage_name, stage.position,
        ⟨0, 0, p.barcodes.length⟩, "Finished processing barcodes."⟩ ∧
    ((ingest (ingest db p now1).1 p now2).1).barcodes
      = ((ingest db p now1).1).barcodes ∧
    (∀ nows : List DateTime,
      (repeat_ingest (ingest db p now1).1 p nows).barcodes
        = ((ingest db p now1).1).barcodes ∧
      (ingest (repeat_ingest (ingest db p now1).1 p nows) p now2).2
        = Except.ok ⟨stage.stage_name, stage.position,
          ⟨0, 0, p.barcodes.length⟩, "Finished processing barcodes."⟩) := by
  obtain ⟨hr1, hpos⟩ := ingest_all_new db p now1 stage hs hnodup hunseen
  have hst1 : ((ingest db p now1).1).stages = db.stages :=
    ingest_stages db p now1
  have key : ∀ (nows : List DateTime) (d : DB),
      d.stages = db.stages →
      (∀ b ∈ p.barcodes,
        current_barcode_position d b = some stage.position) →
      (repeat_ingest d p nows).stages = db.stages ∧
      (repeat_ingest d p nows).barcodes = d.barcodes ∧
      (∀ b ∈ p.barcodes, current_barcode_position (repeat_ingest d p nows) b
        = some stage.position) := by
    intro nows
    induction nows with
    | nil => exact fun d h1 h2 => ⟨h1, rfl, h2⟩
    | cons n rest ih =>
        intro d h1 h2
        have hsd : get_stage d p.stage_name = some stage := by
          show find_stage d.stages p.stage_name = some stage
          rw [h1]
          exact hs
        obtain ⟨_, hbar⟩ := ingest_all_same d p n stage hsd h2
        have hst : ((ingest d p n).1).stages = d.stages :=
          ingest_stages d p n
        have hcbp : ∀ b ∈ p.barcodes,
            current_barcode_position ((ingest d p n).1) b
              = some stage.position := by
          intro b hb
          rw [cbp_congr ((ingest d p n).1) d hst hbar b]
          exact h2 b hb
        obtain ⟨i1, i2, i3⟩ := ih (ingest d p n).1 (hst.trans h1) hcbp
        refine ⟨i1, ?_, i3⟩
        show (repeat_ingest (ingest d p n).1 p rest).barcodes = d.barcodes
        rw [i2, hbar]
  have hs2 : get_stage ((ingest db p now1).1) p.stage_name = some stage := by
    show find_stage ((ingest db p now1).1).stages p.stage_name = some stage
    rw [hst1]
    exact hs
  obtain ⟨hr2, hbar2⟩ := ingest_all_same (ingest db p now1).1 p now2 stage
    hs2 hpos
  refine ⟨hr1, hr2, hbar2, ?_⟩
  intro nows
  obtain ⟨k1, k2, k3⟩ := key nows (ingest db p now1).1 hst1 hpos
  refine ⟨k2, ?_⟩
  have hsd : get_stage (repeat_ingest (ingest db p now1).1 p nows)
      p.stage_name = some stage := by
    show find_stage (repeat_ingest (ingest db p now1).1 p nows).stages
      p.stage_name = some stage
    rw [k1]
    exact hs
  exact (ingest_all_same (repeat_ingest (ingest db p now1).1 p nows) p
    now2 stage hsd k3).1

/-- Witness for C4: scenario A's batch run twice — counts
`{new:2, old:0, same:0}` then `{new:0, old:0, same:2}`, identical store
afterwards. -/
theorem ingest_idempotent_witness :
    get_stage db0 "Packing" = some ⟨"Packing", 1⟩ ∧
    (["B1", "B2"] : List String).Nodup ∧
    current_barcode_position db0 "B1" = none ∧
    current_barcode_position db0 "B2" = none ∧
    (ingest db0 ⟨"Packing", ["B1", "B2"], T1⟩ T0).2
      = Except.ok ⟨"Packing", 1, ⟨2, 0, 0⟩, "Finished processing barcodes."⟩ ∧
    (ingest (ingest db0 ⟨"Packing", ["B1", "B2"], T1⟩ T0).1
        ⟨"Packing", ["B1", "B2"], T1⟩ T1).2
      = Except.ok ⟨"Packing", 1, ⟨0, 0, 2⟩, "Finished processing barcodes."⟩ ∧
    ((ingest (ingest db0 ⟨"Packing", ["B1", "B2"], T1⟩ T0).1
        ⟨"Packing", ["B1", "B2"], T1⟩ T1).1).barcodes
      = ((ingest db0 ⟨"Packing", ["B1", "B2"], T1⟩ T0).1).barcodes ∧
    (ingest (repeat_ingest (ingest db0 ⟨"Packing", ["B1", "B2"], T1⟩ T0).1
        ⟨"Packing", ["B1", "B2"], T1⟩ [T3]) ⟨"Packing", ["B1", "B2"], T1⟩
        T1).2
      = Except.ok ⟨"Packing", 1, ⟨0, 0, 2⟩, "Finished processing barcodes."⟩ :=
  ⟨by decide, by decide, by decide, by decide,
   (ingest_idempotent db0 ⟨"Packing", ["B1", "B2"], T1⟩ T0 T1 ⟨"Packing", 1⟩
      (by decide) (by decide) (by decide)).1,
   (ingest_idempotent db0 ⟨"Packing", ["B1", "B2"], T1⟩ T0 T1 ⟨"Packing", 1⟩
      (by decide) (by decide) (by decide)).2.1,
   (ingest_idempotent db0 ⟨"Packing", ["B1", "B2"], T1⟩ T0 T1 ⟨"Packing", 1⟩
      (by decide) (by decide) (by decide)).2.2.1,
   ((ingest_idempotent db0 ⟨"Packing", ["B1", "B2"], T1⟩ T0 T1 ⟨"Packing", 1⟩
      (by decide) (by decide) (by decide)).2.2.2 [T3]).2⟩

/-- C9: intra-batch duplicates — a batch consisting of k occurrences of
one never-seen barcode classifies the first occurrence NEW (inserting a
state row at the target stage) and the k-1 later occurrences NOOP
("same"): the returned counts are `{new: 1, old: 0, same: k-1}`, the
barcode ends stored at the target position, and k event rows are
appended. -/
theorem ingest_intra_batch_duplicates (db : DB) (sn b : String) (k : Nat)
    (et now : DateTime) (stage : Stage)
    (hs : get_stage db sn = some stage) (hk : 1 ≤ k)
    (hb : current_barcode_position db b = none) :
    (ingest db ⟨sn, List.replicate k b, et⟩ now).2
      = Except.ok ⟨stage.stage_name, stage.position, ⟨1, 0, k - 1⟩,
        "Finished processing barcodes."⟩ ∧
    current_barcode_position
        ((ingest db ⟨sn, List.replicate k b, et⟩ now).1) b
      = some stage.position ∧
    ((ingest db ⟨sn, List.replicate k b, et⟩ now).1).events.length
      = db.events.length + k := by
  have hs' : find_stage db.stages stage.stage_name = some stage :=
    find_stage_self db.stages sn stage hs
  obtain ⟨m, rfl⟩ : ∃ m, k = m + 1 :=
    ⟨k - 1, (Nat.succ_pred_eq_of_pos hk).symm⟩
  have h1 : ingest db ⟨sn, List.replicate (m + 1) b, et⟩ now
      = (((List.replicate (m + 1) b).foldl (processBarcode stage et now)
            (db, ⟨0, 0, 0⟩)).1,
         Except.ok ⟨stage.stage_name, stage.position,
           ((List.replicate (m + 1) b).foldl (processBarcode stage et now)
             (db, ⟨0, 0, 0⟩)).2,
           "Finished processing barcodes."⟩) := by
    unfold ingest
    rw [hs]
  have hfold : (List.replicate (m + 1) b).foldl (processBarcode stage et now)
        (db, (⟨0, 0, 0⟩ : Counts))
      = (List.replicate m b).foldl (processBarcode stage et now)
          (add_event (add_new_barcode db b stage now) b stage et,
           (⟨1, 0, 0⟩ : Counts)) := by
    rw [List.replicate_succ, List.foldl_cons,
      processBarcode_new_eq stage et now (db, ⟨0, 0, 0⟩) b hb]
    rfl
  have hcbp1 : current_barcode_position
      (add_event (add_new_barcode db b stage now) b stage et) b
        = some stage.position := by
    rw [cbp_add_event, cbp_add_new_self db b stage now hb, hs']
    rfl
  obtain ⟨hbar, hcnt, hcbp⟩ := foldl_all_same stage et now
    (List.replicate m b)
    (add_event (add_new_barcode db b stage now) b stage et,
     (⟨1, 0, 0⟩ : Counts))
    (by
      intro x hx
      rw [List.eq_of_mem_replicate hx]
      exact hcbp1)
  refine ⟨?_, ?_, ?_⟩
  · rw [h1]
    simp only [hfold, hcnt]
    simp
  · rw [h1]
    simp only [hfold]
    rw [hcbp b]
    exact hcbp1
  · rw [h1]
    have he := foldl_processBarcode_events stage et now
      (List.replicate (m + 1) b) (db, (⟨0, 0, 0⟩ : Counts))
    simp [he]

/-- Witness for C9: a never-seen barcode reported three times in one
batch yields counts `{new:1, old:0, same:2}` and three event rows. -/
theorem ingest_intra_batch_duplicates_witness :
    get_stage db0 "Packing" = some ⟨"Packing", 1⟩ ∧ 1 ≤ 3 ∧
    current_barcode_position db0 "B1" = none ∧
    (ingest db0 ⟨"Packing", List.replicate 3 "B1", T1⟩ T0).2
      = Except.ok ⟨"Packing", 1, ⟨1, 0, 2⟩, "Finished processing barcodes."⟩ ∧
    current_barcode_position
        ((ingest db0 ⟨"Packing", List.replicate 3 "B1", T1⟩ T0).1) "B1"
      = some 1 ∧
    ((ingest db0 ⟨"Packing", List.replicate 3 "B1", T1⟩ T0).1).events.length
      = db0.events.length + 3 :=
  ⟨by decide, by decide, by decide,
   (ingest_intra_batch_duplicates db0 "Packing" "B1" 3 T1 T0 ⟨"Packing", 1⟩
      (by decide) (by decide) (by decide)).1,
   (ingest_intra_batch_duplicates db0 "Packing" "B1" 3 T1 T0 ⟨"Packing", 1⟩
      (by decide) (by decide) (by decide)).2.1,
   (ingest_intra_batch_duplicates db0 "Packing" "B1" 3 T1 T0 ⟨"Packing", 1⟩
      (by decide) (by decide) (by decide)).2.2⟩

/-- With a failure injected at batch index i, the loop commits exactly the
writes of the first i barcodes and stops with the storage error. -/
theorem ingest_loop_failing_take (stage : Stage) (et now : DateTime)
    (bs : List String) (i j : Nat) (acc : DB × Counts)
    (hi : i < bs.length) :
    ingest_loop_failing stage et now (fun x => x == j + i) bs j acc
      = (((bs.take i).foldl (processBarcode stage et now) acc).1,
         Except.error ⟨500, "Database error"⟩) := by
  induction bs generalizing i j acc with
  | nil => simp at hi
  | cons c rest ih =>
      cases i with
      | zero =>
          unfold ingest_loop_failing
          simp
      | succ n =>
          unfold ingest_loop_failing
          have hne : (j == j + (n + 1)) = false := by simp
          rw [hne]
          have hidx : j + (n + 1) = (j + 1) + n := by omega
          simp only [Bool.false_eq_true, if_false, List.take_succ_cons,
            List.foldl_cons]
          rw [hidx]
          exact ih n (j + 1) (processBarcode stage et now acc c)
            (Nat.lt_of_succ_lt_succ (by simpa using hi))

/-- C10: no batch atomicity — the connection autocommits every
per-barcode write, so when a storage error hits while processing the
batch's i-th barcode, the request surfaces the 500 database error while
the resulting store state equals the state a successful ingest of just
the first i barcodes would leave: every write before the failure stays
committed, nothing is rolled back. -/
theorem ingest_failing_keeps_earlier_writes (db : DB) (p : IngestPayload)
    (now : DateTime) (stage : Stage) (i : Nat)
    (hs : get_stage db p.stage_name = some stage)
    (hi : i < p.barcodes.length) :
    (ingest_failing db p now (fun j => j == i)).1
      = (ingest db ⟨p.stage_name, p.barcodes.take i, p.event_time⟩ now).1 ∧
    (ingest_failing db p now (fun j => j == i)).2
      = Except.error ⟨500, "Database error"⟩ := by
  have hq : (fun j => j == i) = (fun x => x == 0 + i) := by
    funext x
    rw [Nat.zero_add]
  have h2 : ingest db ⟨p.stage_name, p.barcodes.take i, p.event_time⟩ now
      = (((p.barcodes.take i).foldl (processBarcode stage p.event_time now)
            (db, ⟨0, 0, 0⟩)).1,
         Except.ok ⟨stage.stage_name, stage.position,
           ((p.barcodes.take i).foldl (processBarcode stage p.event_time now)
             (db, ⟨0, 0, 0⟩)).2,
           "Finished processing barcodes."⟩) := by
    unfold ingest
    rw [hs]
  have h3 : ingest_failing db p now (fun j => j == i)
      = (((p.barcodes.take i).foldl (processBarcode stage p.event_time now)
            (db, ⟨0, 0, 0⟩)).1,
         Except.error ⟨500, "Database error"⟩) := by
    unfold ingest_failing
    rw [hq]
    simp only [hs]
    rw [ingest_loop_failing_take stage p.event_time now p.barcodes
      i 0 (db, ⟨0, 0, 0⟩) hi]
  rw [h2, h3]
  exact ⟨rfl, rfl⟩

/-- Witness for C10: a two-barcode batch failing on the second barcode
keeps the first barcode's state and event writes and surfaces a 500. -/
theorem ingest_failing_keeps_earlier_writes_witness :
    get_stage db0 "Packing" = some ⟨"Packing", 1⟩ ∧
    1 < (["B1", "B2"] : List String).length ∧
    (ingest_failing db0 ⟨"Packing", ["B1", "B2"], T1⟩ T0 (fun j => j == 1)).1
      = (ingest db0 ⟨"Packing", ["B1"], T1⟩ T0).1 ∧
    (ingest_failing db0 ⟨"Packing", ["B1", "B2"], T1⟩ T0 (fun j => j == 1)).2
      = Except.error ⟨500, "Database error"⟩ :=
  ⟨by decide, by decide,
   (ingest_failing_keeps_earlier_writes db0 ⟨"Packing", ["B1", "B2"], T1⟩ T0
      ⟨"Packing", 1⟩ 1 (by decide) (by decide)).1,
   (ingest_failing_keeps_earlier_writes db0 ⟨"Packing", ["B1", "B2"], T1⟩ T0
      ⟨"Packing", 1⟩ 1 (by decide) (by decide)).2⟩

end DataHub
